import Mathlib

/-!
Shallow embedding of the model-selection ranking engine
(`app/utils/model_selection.py`, class `ModelSelection`).

Modelling conventions:
* Python floats are idealized as real numbers (`ℝ`).
* Python `date` values are embedded as integers (`ℤ`) counting days, so that
  `target_date - timedelta(days=L)` becomes `target_date - L` and date
  comparison is integer comparison.
* Python dicts (which preserve insertion order) are embedded as association
  lists; `defaultdict(float)` accumulation is embedded by `bumpRank`.
* Python's `sorted`/`list.sort` is a stable sort; it is embedded by
  `List.insertionSort`, which is likewise stable, with relation `rankLE`
  (ascending by the second component, the sort key `x[1]`) or `rankGE`
  (descending, i.e. `reverse=True`).
* The method `calculate_all_metrics` returns a dict with exactly the five
  metric keys; it is embedded as the structure `MetricSet`, and
  `model_metrics[name].get(metric, 0.0)` as the total projection `metricGet`
  (the `0.0` default is unreachable because every `MetricSet` has all five
  keys).
-/

namespace PyTAAAWeb

noncomputable section

abbrev ValueSeries := List ℝ

/-- The five metric names of `ModelSelection.METRIC_WEIGHTS`, in dict
insertion order. -/
inductive Metric where
  | annual_return
  | sharpe_ratio
  | max_drawdown
  | sortino_ratio
  | calmar_ratio
deriving DecidableEq

/-- One model's metrics for one lookback window: the dict returned by
`calculate_all_metrics`. -/
structure MetricSet where
  annual_return : ℝ
  sharpe_ratio : ℝ
  max_drawdown : ℝ
  sortino_ratio : ℝ
  calmar_ratio : ℝ

/-- `model_metrics[name].get(metric, 0.0)`; total because a `MetricSet`
always carries all five metrics. -/
def metricGet (ms : MetricSet) : Metric → ℝ
  | Metric.annual_return => ms.annual_return
  | Metric.sharpe_ratio => ms.sharpe_ratio
  | Metric.max_drawdown => ms.max_drawdown
  | Metric.sortino_ratio => ms.sortino_ratio
  | Metric.calmar_ratio => ms.calmar_ratio

/-- `ModelSelection.METRIC_WEIGHTS`, in dict insertion order. -/
def METRIC_WEIGHTS : List (Metric × ℝ) :=
  [(Metric.annual_return, 0.25),
   (Metric.sharpe_ratio, 0.25),
   (Metric.max_drawdown, 0.20),
   (Metric.sortino_ratio, 0.15),
   (Metric.calmar_ratio, 0.15)]

/-- `ModelSelection.calculate_annual_return(values, days)`. -/
def calculate_annual_return (values : ValueSeries) (days : ℤ) : ℝ :=
  if values.isEmpty ∨ values.length < 2 ∨ days ≤ 0 then 0
  else
    let start_value := values.headD 0
    let end_value := values.getLastD 0
    if start_value ≤ 0 then 0
    else
      let total_return := (end_value - start_value) / start_value
      let years := (days : ℝ) / 252
      if years ≤ 0 then 0
      else ((1 + total_return) ^ (1 / years)) - 1

/-- `ModelSelection.calculate_returns(values)`: pairwise daily returns,
emitting `0.0` on a step whose previous value is not positive. -/
def calculate_returns : ValueSeries → List ℝ
  | [] => []
  | [_] => []
  | a :: b :: rest =>
      (if a > 0 then (b - a) / a else 0) :: calculate_returns (b :: rest)

/-- `ModelSelection.calculate_sharpe_ratio(values, risk_free_rate)`. -/
def calculate_sharpe_ratio (values : ValueSeries) (risk_free_rate : ℝ) : ℝ :=
  let returns := calculate_returns values
  if returns.isEmpty then 0
  else
    let mean_return := returns.sum / (returns.length : ℝ)
    let variance :=
      ((returns.map fun r => (r - mean_return) ^ 2).sum) / (returns.length : ℝ)
    let std_dev := Real.sqrt variance
    if std_dev = 0 then 0
    else
      let daily_rf := (1 + risk_free_rate) ^ ((1 : ℝ) / 252) - 1
      ((mean_return - daily_rf) / std_dev) * Real.sqrt 252

/-- One step of the running-peak loop in `calculate_max_drawdown`:
state is `(max_value, max_dd)`. -/
def drawdown_step (s : ℝ × ℝ) (value : ℝ) : ℝ × ℝ :=
  let max_value := if value > s.1 then value else s.1
  let max_dd :=
    if max_value > 0 then
      (if (max_value - value) / max_value > s.2
       then (max_value - value) / max_value else s.2)
    else s.2
  (max_value, max_dd)

/-- `ModelSelection.calculate_max_drawdown(values)`. -/
def calculate_max_drawdown : ValueSeries → ℝ
  | [] => 0
  | v :: rest => ((v :: rest).foldl drawdown_step (v, 0)).2

/-- `ModelSelection.calculate_sortino_ratio(values, risk_free_rate)`.
Note the deliberate non-standard denominator: the downside variance is
divided by the total number of returns, not the downside count. -/
def calculate_sortino_ratio (values : ValueSeries) (risk_free_rate : ℝ) : ℝ :=
  let returns := calculate_returns values
  if returns.isEmpty then 0
  else
    let mean_return := returns.sum / (returns.length : ℝ)
    let daily_rf := (1 + risk_free_rate) ^ ((1 : ℝ) / 252) - 1
    let downside_returns := returns.filter fun r => decide (r < daily_rf)
    if downside_returns.isEmpty then 0
    else
      let downside_variance :=
        ((downside_returns.map fun r => (r - daily_rf) ^ 2).sum) / (returns.length : ℝ)
      let downside_dev := Real.sqrt downside_variance
      if downside_dev = 0 then 0
      else ((mean_return - daily_rf) / downside_dev) * Real.sqrt 252

/-- `ModelSelection.calculate_calmar_ratio(values, days)`. -/
def calculate_calmar_ratio (values : ValueSeries) (days : ℤ) : ℝ :=
  let annual_return := calculate_annual_return values days
  let max_dd := calculate_max_drawdown values
  if max_dd = 0 then 0 else annual_return / max_dd

/-- `ModelSelection.calculate_all_metrics(values, days)`. -/
def calculate_all_metrics (values : ValueSeries) (days : ℤ) : MetricSet where
  annual_return := calculate_annual_return values days
  sharpe_ratio := calculate_sharpe_ratio values 0
  max_drawdown := calculate_max_drawdown values
  sortino_ratio := calculate_sortino_ratio values 0
  calmar_ratio := calculate_calmar_ratio values days

/-- Ascending order on `(model, value)` pairs by the sort key `x[1]`. -/
def rankLE (p q : String × ℝ) : Prop := p.2 ≤ q.2

/-- Descending order on `(model, value)` pairs (`reverse=True`). -/
def rankGE (p q : String × ℝ) : Prop := q.2 ≤ p.2

instance : DecidableRel rankLE := fun p q => Real.decidableLE p.2 q.2

instance : DecidableRel rankGE := fun p q => Real.decidableLE q.2 p.2

instance : IsTotal (String × ℝ) rankLE := ⟨fun a b => le_total a.2 b.2⟩

instance : IsTrans (String × ℝ) rankLE := ⟨fun _ _ _ h h2 => le_trans h h2⟩

instance : IsTotal (String × ℝ) rankGE := ⟨fun a b => le_total b.2 a.2⟩

instance : IsTrans (String × ℝ) rankGE := ⟨fun _ _ _ h h2 => le_trans h2 h⟩

/-- The sorted `metric_values` list of `rank_models` for one metric:
ascending for `max_drawdown`, descending otherwise; both sorts stable. -/
def sortedMetricValues (model_metrics : List (String × MetricSet)) (m : Metric) :
    List (String × ℝ) :=
  let metric_values := model_metrics.map fun p => (p.1, metricGet p.2 m)
  if m = Metric.max_drawdown then List.insertionSort rankLE metric_values
  else List.insertionSort rankGE metric_values

/-- `metric_ranks[name][metric]`: 1-based position of `name` in the sorted
`metric_values` list (`enumerate(..., start=1)`). -/
def metricRank (model_metrics : List (String × MetricSet)) (m : Metric)
    (name : String) : ℝ :=
  ((sortedMetricValues model_metrics m).findIdx fun p => p.1 == name) + 1

/-- `ModelSelection.rank_models(model_metrics)`: weighted composite rank per
model (the `if not model_metrics: return {}` guard is subsumed by mapping
over the empty list). -/
def rank_models (model_metrics : List (String × MetricSet)) :
    List (String × ℝ) :=
  model_metrics.map fun p =>
    (p.1, (METRIC_WEIGHTS.map fun mw => metricRank model_metrics mw.1 p.1 * mw.2).sum)

/-- The `model_metrics` dict built by `select_best_model` for one lookback
window: filter each series to `cutoff_date <= date <= target_date`, drop
models with fewer than 2 surviving points, and score the rest with
`actual_days = len(filtered_points)`. -/
def window_metrics (backtest_data : List (String × List (ℤ × ℝ)))
    (target_date : ℤ) (lookback_days : ℤ) : List (String × MetricSet) :=
  let cutoff_date := target_date - lookback_days
  backtest_data.filterMap fun (md : String × List (ℤ × ℝ)) =>
    let filtered_points : List (ℤ × ℝ) :=
      md.2.filter fun p => decide (cutoff_date ≤ p.1 ∧ p.1 ≤ target_date)
    if filtered_points.isEmpty || decide (filtered_points.length < 2) then none
    else some (md.1, calculate_all_metrics (filtered_points.map Prod.snd)
                        (filtered_points.length : ℤ))

/-- The `all_ranks` list of `select_best_model`: one `RankMap` per lookback
period that yielded a non-empty `model_metrics`. -/
def window_ranks (lookback_periods : List ℤ)
    (backtest_data : List (String × List (ℤ × ℝ))) (target_date : ℤ) :
    List (List (String × ℝ)) :=
  lookback_periods.filterMap fun lookback_days =>
    let model_metrics := window_metrics backtest_data target_date lookback_days
    if model_metrics.isEmpty then none else some (rank_models model_metrics)

/-- `final_ranks[model_name] += rank` on a `defaultdict(float)`: update the
first matching key, or append a fresh entry at the end. -/
def bumpRank : List (String × ℝ) → String × ℝ → List (String × ℝ)
  | [], nr => [(nr.1, nr.2)]
  | (m, s) :: rest, nr =>
      if m = nr.1 then (m, s + nr.2) :: rest
      else (m, s) :: bumpRank rest nr

/-- `ModelSelection.select_best_model(backtest_data, target_date)` for a
given `lookback_periods` configuration. Returns
`(best_model, confidence, final_ranks)`. -/
def select_best_model (lookback_periods : List ℤ)
    (backtest_data : List (String × List (ℤ × ℝ))) (target_date : ℤ) :
    String × ℝ × List (String × ℝ) :=
  let all_ranks := window_ranks lookback_periods backtest_data target_date
  if all_ranks.isEmpty then ("cash", 0, [])
  else
    let summed := all_ranks.foldl (fun acc ranks => ranks.foldl bumpRank acc) []
    let final_ranks := summed.map fun p => (p.1, p.2 / (all_ranks.length : ℝ))
    if final_ranks.isEmpty then ("cash", 0, [])
    else
      let sorted_models := List.insertionSort rankLE final_ranks
      let best := sorted_models.headD ("cash", 0)
      let confidence :=
        if 1 < sorted_models.length then (sorted_models.getD 1 ("cash", 0)).2 - best.2
        else 0
      (best.1, confidence, final_ranks)

/-- Test scenario from the spec (§8): model "A" gains 1 per day from 100,
model "B" loses 1 per day from 100, over 30 consecutive days (dates 1..30). -/
def scenario_backtest : List (String × List (ℤ × ℝ)) :=
  [("A", [(1, 100), (2, 101), (3, 102), (4, 103), (5, 104), (6, 105), (7, 106), (8, 107), (9, 108), (10, 109), (11, 110), (12, 111), (13, 112), (14, 113), (15, 114), (16, 115), (17, 116), (18, 117), (19, 118), (20, 119), (21, 120), (22, 121), (23, 122), (24, 123), (25, 124), (26, 125), (27, 126), (28, 127), (29, 128), (30, 129)]),
   ("B", [(1, 100), (2, 99), (3, 98), (4, 97), (5, 96), (6, 95), (7, 94), (8, 93), (9, 92), (10, 91), (11, 90), (12, 89), (13, 88), (14, 87), (15, 86), (16, 85), (17, 84), (18, 83), (19, 82), (20, 81), (21, 80), (22, 79), (23, 78), (24, 77), (25, 76), (26, 75), (27, 74), (28, 73), (29, 72), (30, 71)])]

/-- Dictionary read-out `d[name]` with default `0.0` on an association list
(first matching key wins, as in a Python dict embedded with unique keys). -/
def lookupD (l : List (String × ℝ)) (name : String) : ℝ :=
  match l.find? fun p => p.1 == name with
  | some p => p.2
  | none => 0

end

/-! ### Helper lemmas -/

theorem calculate_returns_of_short {values : ValueSeries}
    (h : values.length < 2) : calculate_returns values = [] := by
  match values with
  | [] => rfl
  | [_] => rfl
  | a :: b :: rest => exact absurd h (by simp)

theorem max_drawdown_singleton (x : ℝ) : calculate_max_drawdown [x] = 0 := by
  simp [calculate_max_drawdown, drawdown_step, lt_irrefl, sub_self, zero_div]

/-! ### C7 -/

/-- C7: on every series with fewer than two points, `calculate_annual_return`,
`calculate_sharpe_ratio`, `calculate_sortino_ratio` and `calculate_calmar_ratio`
return 0.0, and `calculate_max_drawdown` returns 0.0 on the empty series and
on every single-element series; all functions are total on such input. -/
theorem small_input_metrics_zero (values : ValueSeries) (days : ℤ) (rf x : ℝ)
    (h : values.length < 2) :
    calculate_annual_return values days = 0 ∧
    calculate_sharpe_ratio values rf = 0 ∧
    calculate_sortino_ratio values rf = 0 ∧
    calculate_calmar_ratio values days = 0 ∧
    calculate_max_drawdown [] = 0 ∧
    calculate_max_drawdown [x] = 0 := by
  have hret : calculate_returns values = [] := calculate_returns_of_short h
  have har : calculate_annual_return values days = 0 := by
    unfold calculate_annual_return
    rw [if_pos (Or.inr (Or.inl h))]
  refine ⟨har, ?_, ?_, ?_, rfl, max_drawdown_singleton x⟩
  · unfold calculate_sharpe_ratio
    rw [hret]
    simp
  · unfold calculate_sortino_ratio
    rw [hret]
    simp
  · unfold calculate_calmar_ratio
    by_cases hm : calculate_max_drawdown values = 0
    · simp [hm]
    · simp only [if_neg hm, har, zero_div]

/-- Witness for C7 at the concrete series `[1.0]`. -/
theorem small_input_metrics_zero_witness :
    (([(1 : ℝ)] : ValueSeries).length < 2) ∧
    (calculate_annual_return [(1 : ℝ)] 5 = 0 ∧
     calculate_sharpe_ratio [(1 : ℝ)] 0 = 0 ∧
     calculate_sortino_ratio [(1 : ℝ)] 0 = 0 ∧
     calculate_calmar_ratio [(1 : ℝ)] 5 = 0 ∧
     calculate_max_drawdown [] = 0 ∧
     calculate_max_drawdown [(2 : ℝ)] = 0) :=
  ⟨by norm_num, small_input_metrics_zero [(1 : ℝ)] 5 0 2 (by norm_num)⟩

/-! ### C8 -/

/-- C8: ranking a single model always yields composite rank exactly 1.0,
because every per-metric rank is 1 and the five weights sum to 1.0. -/
theorem single_model_composite_rank_one (name : String) (ms : MetricSet) :
    rank_models [(name, ms)] = [(name, 1)] := by
  simp only [rank_models, List.map_cons, List.map_nil, metricRank,
    sortedMetricValues, METRIC_WEIGHTS]
  norm_num [List.insertionSort, List.findIdx_cons]

theorem sorted_pair_le {l : List (String × ℝ)} {s0 s1 : String × ℝ}
    {rest : List (String × ℝ)}
    (h : List.insertionSort rankLE l = s0 :: s1 :: rest) : s0.2 ≤ s1.2 := by
  have hs := List.sorted_insertionSort rankLE l
  rw [h] at hs
  exact (List.sorted_cons.mp hs).1 s1 (by simp)

/-! ### C5 -/

/-- C5: `calculate_sortino_ratio` filters the daily returns strictly below
the daily risk-free rate `(1+rf)^(1/252)-1`, divides the sum of squared
deviations of those downside returns by the TOTAL number of returns (not the
downside count), takes the square root, and returns
`((mean - daily_rf) / deviation) * sqrt 252`; it returns 0.0 when no return
is strictly below the threshold or the deviation is 0. -/
theorem sortino_total_count_denominator (values : ValueSeries) (rf : ℝ) :
    calculate_sortino_ratio values rf =
      if (calculate_returns values).filter
           (fun r => decide (r < (1 + rf) ^ ((1 : ℝ) / 252) - 1)) = []
         ∨ Real.sqrt
             ((((calculate_returns values).filter
                  fun r => decide (r < (1 + rf) ^ ((1 : ℝ) / 252) - 1)).map
                 fun r => (r - ((1 + rf) ^ ((1 : ℝ) / 252) - 1)) ^ 2).sum /
               ((calculate_returns values).length : ℝ)) = 0
      then 0
      else
        (((calculate_returns values).sum / ((calculate_returns values).length : ℝ) -
            ((1 + rf) ^ ((1 : ℝ) / 252) - 1)) /
          Real.sqrt
            ((((calculate_returns values).filter
                 fun r => decide (r < (1 + rf) ^ ((1 : ℝ) / 252) - 1)).map
                fun r => (r - ((1 + rf) ^ ((1 : ℝ) / 252) - 1)) ^ 2).sum /
              ((calculate_returns values).length : ℝ))) * Real.sqrt 252 := by
  unfold calculate_sortino_ratio
  rcases hret : calculate_returns values with _ | ⟨r, rs⟩
  · simp
  · rw [← hret]
    simp only [List.isEmpty_iff, hret]
    rw [if_neg (by simp)]
    rw [← hret]
    split_ifs with h1 h2 h3 h4 <;> first | rfl | tauto

/-! ### C10 -/

/-- C10: the confidence returned by `select_best_model` is always
non-negative: it is 0.0 in the sentinel and single-model cases, and otherwise
the gap between the second-best and best aggregate rank taken from a list
sorted ascending by rank. -/
theorem confidence_nonneg (lookback_periods : List ℤ)
    (backtest_data : List (String × List (ℤ × ℝ))) (target_date : ℤ) :
    0 ≤ (select_best_model lookback_periods backtest_data target_date).2.1 := by
  unfold select_best_model
  rcases hwr : window_ranks lookback_periods backtest_data target_date with _ | ⟨w, ws⟩
  · simp
  · simp only [List.isEmpty_cons, Bool.false_eq_true, if_false]
    split
    · simp
    · split
      case isTrue hlen =>
        rcases hs : List.insertionSort rankLE
            ((((w :: ws).foldl (fun acc ranks => ranks.foldl bumpRank acc) []).map
              fun p => (p.1, p.2 / ((w :: ws).length : ℝ)))) with _ | ⟨s0, stail⟩
        · rw [hs] at hlen; simp at hlen
        · rcases stail with _ | ⟨s1, srest⟩
          · rw [hs] at hlen; simp at hlen
          · rw [hs] at hlen ⊢
            simp only [List.headD_cons, List.getD, List.get?_cons_succ,
              List.get?_cons_zero, Option.getD_some]
            have := sorted_pair_le hs
            linarith
      case isFalse => simp

theorem bumpRank_ne_nil (acc : List (String × ℝ)) (nr : String × ℝ) :
    bumpRank acc nr ≠ [] := by
  cases acc with
  | nil => simp [bumpRank]
  | cons a rest =>
    obtain ⟨m, s⟩ := a
    simp only [bumpRank]
    split_ifs <;> simp

theorem foldl_bumpRank_ne_nil :
    ∀ (l acc : List (String × ℝ)), acc ≠ [] → l.foldl bumpRank acc ≠ []
  | [], _, h => h
  | x :: xs, acc, _ => foldl_bumpRank_ne_nil xs (bumpRank acc x) (bumpRank_ne_nil _ _)

theorem foldl_windows_ne_nil :
    ∀ (ws : List (List (String × ℝ))) (acc : List (String × ℝ)), acc ≠ [] →
      ws.foldl (fun acc ranks => ranks.foldl bumpRank acc) acc ≠ []
  | [], _, h => h
  | w :: ws, acc, h => foldl_windows_ne_nil ws _ (foldl_bumpRank_ne_nil w acc h)

theorem rank_models_ne_nil {mm : List (String × MetricSet)} (h : mm ≠ []) :
    rank_models mm ≠ [] := by
  simpa [rank_models] using h

theorem mem_window_ranks {lookback_periods : List ℤ}
    {backtest_data : List (String × List (ℤ × ℝ))} {target_date : ℤ}
    {w : List (String × ℝ)}
    (hw : w ∈ window_ranks lookback_periods backtest_data target_date) :
    ∃ L, L ∈ lookback_periods ∧
      window_metrics backtest_data target_date L ≠ [] ∧
      w = rank_models (window_metrics backtest_data target_date L) := by
  simp only [window_ranks, List.mem_filterMap] at hw
  obtain ⟨L, hL, hf⟩ := hw
  by_cases h : (window_metrics backtest_data target_date L).isEmpty
  · rw [if_pos h] at hf
    cases hf
  · rw [if_neg h] at hf
    refine ⟨L, hL, by simpa [List.isEmpty_iff] using h, (Option.some_inj.mp hf).symm⟩

theorem summed_ranks_ne_nil {lookback_periods : List ℤ}
    {backtest_data : List (String × List (ℤ × ℝ))} {target_date : ℤ}
    {w : List (String × ℝ)} {ws : List (List (String × ℝ))}
    (hwr : window_ranks lookback_periods backtest_data target_date = w :: ws) :
    (w :: ws).foldl (fun acc ranks => ranks.foldl bumpRank acc) [] ≠ [] := by
  have hwmem : w ∈ window_ranks lookback_periods backtest_data target_date := by
    rw [hwr]; exact List.mem_cons_self w ws
  obtain ⟨L, _, hmm, hwrk⟩ := mem_window_ranks hwmem
  have hwne : w ≠ [] := hwrk ▸ rank_models_ne_nil hmm
  obtain ⟨p, w', rfl⟩ := List.exists_cons_of_ne_nil hwne
  exact foldl_windows_ne_nil ws _
    (foldl_bumpRank_ne_nil w' (bumpRank [] p) (bumpRank_ne_nil [] p))

/-! ### C2 -/

/-- C2: `select_best_model` returns the sentinel `("cash", 0.0, {})` exactly
when no lookback window produces any ranking; a window produces no ranking
exactly when no model has at least 2 data points inside it; and empty
`backtest_data` always yields the sentinel. -/
theorem sentinel_iff_no_window_ranks (lookback_periods : List ℤ)
    (backtest_data : List (String × List (ℤ × ℝ))) (target_date : ℤ) :
    (select_best_model lookback_periods backtest_data target_date = ("cash", 0, []) ↔
      window_ranks lookback_periods backtest_data target_date = []) ∧
    (window_ranks lookback_periods backtest_data target_date = [] ↔
      ∀ L ∈ lookback_periods, window_metrics backtest_data target_date L = []) ∧
    (backtest_data = [] →
      select_best_model lookback_periods backtest_data target_date = ("cash", 0, [])) := by
  have hfwd : window_ranks lookback_periods backtest_data target_date = [] →
      select_best_model lookback_periods backtest_data target_date = ("cash", 0, []) := by
    intro h
    unfold select_best_model
    rw [h]
    simp
  have hiff2 : window_ranks lookback_periods backtest_data target_date = [] ↔
      ∀ L ∈ lookback_periods, window_metrics backtest_data target_date L = [] := by
    simp only [window_ranks, List.filterMap_eq_nil_iff]
    constructor
    · intro h L hL
      have hLnone := h L hL
      by_cases he : (window_metrics backtest_data target_date L).isEmpty
      · exact List.isEmpty_iff.mp he
      · rw [if_neg he] at hLnone
        cases hLnone
    · intro h L hL
      rw [if_pos (by simp [h L hL])]
  refine ⟨⟨?_, hfwd⟩, hiff2, ?_⟩
  · intro hsel
    by_contra hne
    obtain ⟨w, ws, hwr⟩ := List.exists_cons_of_ne_nil hne
    have hsum := summed_ranks_ne_nil hwr
    obtain ⟨q, qs, hq⟩ := List.exists_cons_of_ne_nil hsum
    unfold select_best_model at hsel
    rw [hwr] at hsel
    simp only [List.isEmpty_cons, Bool.false_eq_true, if_false, hq] at hsel
    simp at hsel
  · intro hdata
    apply hfwd
    rw [hiff2]
    intro L _
    rw [hdata]
    rfl

theorem lookupD_nil (n : String) : lookupD [] n = 0 := rfl

theorem lookupD_cons (m : String) (s : ℝ) (rest : List (String × ℝ)) (n : String) :
    lookupD ((m, s) :: rest) n = if m = n then s else lookupD rest n := by
  by_cases h : m = n
  · simp [lookupD, List.find?, h]
  · simp only [lookupD, List.find?]
    rw [show (m == n) = false by simpa using h]
    simp [h, lookupD]

theorem lookupD_bumpRank (acc : List (String × ℝ)) (nr : String × ℝ) (n : String) :
    lookupD (bumpRank acc nr) n = lookupD acc n + (if nr.1 = n then nr.2 else 0) := by
  induction acc with
  | nil =>
    rcases nr with ⟨k, r⟩
    by_cases h : k = n <;> simp [bumpRank, lookupD_cons, lookupD_nil, h]
  | cons a rest ih =>
    rcases a with ⟨m, s⟩
    rcases nr with ⟨k, r⟩
    simp only [bumpRank]
    by_cases hmk : m = k
    · rw [if_pos hmk, lookupD_cons, lookupD_cons]
      by_cases hmn : m = n
      · rw [if_pos hmn, if_pos hmn, if_pos (by rw [← hmk, hmn])]
      · rw [if_neg hmn, if_neg hmn, if_neg (by rw [← hmk]; exact hmn), add_zero]
    · rw [if_neg hmk, lookupD_cons, lookupD_cons]
      by_cases hmn : m = n
      · rw [if_pos hmn, if_pos hmn,
          if_neg (by rw [← hmn]; exact fun hh => hmk hh.symm), add_zero]
      · rw [if_neg hmn, if_neg hmn, ih]

theorem lookupD_foldl_bumpRank (l acc : List (String × ℝ)) (n : String) :
    lookupD (l.foldl bumpRank acc) n =
      lookupD acc n + (l.map fun p => if p.1 = n then p.2 else 0).sum := by
  induction l generalizing acc with
  | nil => simp
  | cons x xs ih =>
    simp only [List.foldl_cons, List.map_cons, List.sum_cons]
    rw [ih, lookupD_bumpRank]
    ring

theorem lookupD_foldl_windows (ws : List (List (String × ℝ)))
    (acc : List (String × ℝ)) (n : String) :
    lookupD (ws.foldl (fun acc ranks => ranks.foldl bumpRank acc) acc) n =
      lookupD acc n +
        (ws.map fun w => (w.map fun p => if p.1 = n then p.2 else 0).sum).sum := by
  induction ws generalizing acc with
  | nil => simp
  | cons w ws ih =>
    simp only [List.foldl_cons, List.map_cons, List.sum_cons]
    rw [ih, lookupD_foldl_bumpRank]
    ring

theorem contribution_of_not_mem {w : List (String × ℝ)} {n : String}
    (h : n ∉ w.map Prod.fst) :
    (w.map fun p => if p.1 = n then p.2 else 0).sum = 0 := by
  induction w with
  | nil => simp
  | cons p rest ih =>
    simp only [List.map_cons, List.mem_cons] at h
    push_neg at h
    simp only [List.map_cons, List.sum_cons]
    rw [if_neg (fun hh => h.1 hh.symm), ih h.2, add_zero]

theorem contribution_eq_lookupD {w : List (String × ℝ)}
    (hnd : (w.map Prod.fst).Nodup) (n : String) :
    (w.map fun p => if p.1 = n then p.2 else 0).sum = lookupD w n := by
  induction w with
  | nil => simp [lookupD_nil]
  | cons p rest ih =>
    rcases p with ⟨m, s⟩
    simp only [List.map_cons, List.nodup_cons] at hnd
    simp only [List.map_cons, List.sum_cons, lookupD_cons]
    by_cases h : m = n
    · rw [if_pos h, if_pos h,
        contribution_of_not_mem (by rw [← h]; exact hnd.1), add_zero]
    · rw [if_neg h, if_neg h, zero_add, ih hnd.2]

theorem lookupD_map_div (l : List (String × ℝ)) (k : ℝ) (n : String) :
    lookupD (l.map fun p => (p.1, p.2 / k)) n = lookupD l n / k := by
  induction l with
  | nil => simp [lookupD_nil]
  | cons p rest ih =>
    rcases p with ⟨m, s⟩
    simp only [List.map_cons, lookupD_cons]
    by_cases h : m = n
    · rw [if_pos h, if_pos h]
    · rw [if_neg h, if_neg h, ih]

theorem window_metrics_keys_sublist (backtest_data : List (String × List (ℤ × ℝ)))
    (target_date lookback_days : ℤ) :
    ((window_metrics backtest_data target_date lookback_days).map Prod.fst).Sublist
      (backtest_data.map Prod.fst) := by
  induction backtest_data with
  | nil => simp [window_metrics]
  | cons d rest ih =>
    simp only [window_metrics, List.filterMap_cons] at ih ⊢
    split
    · exact ih.cons d.1
    case h_2 x heq =>
      have hx : x.1 = d.1 := by
        split at heq
        · cases heq
        · cases heq
          rfl
      simp only [List.map_cons, hx]
      exact ih.cons₂ d.1

theorem rank_models_keys (mm : List (String × MetricSet)) :
    (rank_models mm).map Prod.fst = mm.map Prod.fst := by
  simp [rank_models]

/-! ### C1 -/

/-- C1: whenever at least one lookback window produces a ranking, every
model's final rank in `select_best_model` equals its summed per-window rank
divided by the number of windows that produced a non-empty rank map — the
same denominator for every model, not that model's own appearance count. -/
theorem final_rank_divides_by_window_count (lookback_periods : List ℤ)
    (backtest_data : List (String × List (ℤ × ℝ))) (target_date : ℤ) (n : String)
    (hnd : (backtest_data.map Prod.fst).Nodup)
    (hne : window_ranks lookback_periods backtest_data target_date ≠ []) :
    lookupD (select_best_model lookback_periods backtest_data target_date).2.2 n =
      ((window_ranks lookback_periods backtest_data target_date).map
        fun w => lookupD w n).sum /
      ((window_ranks lookback_periods backtest_data target_date).length : ℝ) := by
  obtain ⟨w, ws, hwr⟩ := List.exists_cons_of_ne_nil hne
  have hsum := summed_ranks_ne_nil hwr
  obtain ⟨q, qs, hq⟩ := List.exists_cons_of_ne_nil hsum
  unfold select_best_model
  rw [hwr]
  simp only [List.isEmpty_cons, Bool.false_eq_true, if_false, hq]
  rw [if_neg (by simp)]
  rw [← hq, lookupD_map_div, lookupD_foldl_windows, lookupD_nil, zero_add]
  congr 1
  refine congrArg List.sum (List.map_congr_left ?_)
  intro a ha
  have hamem : a ∈ window_ranks lookback_periods backtest_data target_date := by
    rw [hwr]; exact ha
  obtain ⟨L, _, _, hark⟩ := mem_window_ranks hamem
  have hkeys : (a.map Prod.fst).Nodup := by
    rw [hark, rank_models_keys]
    exact (window_metrics_keys_sublist backtest_data target_date L).nodup hnd
  exact contribution_eq_lookupD hkeys n

/-- Witness for C1 on one model with two in-window points and one window. -/
theorem final_rank_divides_by_window_count_witness :
    (([("A", [((1 : ℤ), (100 : ℝ)), (2, 110)])].map Prod.fst).Nodup) ∧
    window_ranks [10] [("A", [((1 : ℤ), (100 : ℝ)), (2, 110)])] 2 ≠ [] ∧
    lookupD (select_best_model [10] [("A", [((1 : ℤ), (100 : ℝ)), (2, 110)])] 2).2.2 "A" =
      ((window_ranks [10] [("A", [((1 : ℤ), (100 : ℝ)), (2, 110)])] 2).map
        fun w => lookupD w "A").sum /
      ((window_ranks [10] [("A", [((1 : ℤ), (100 : ℝ)), (2, 110)])] 2).length : ℝ) :=
  have hmm : window_metrics [("A", [((1 : ℤ), (100 : ℝ)), (2, 110)])] 2 10 ≠ [] := by
    simp only [window_metrics, List.filterMap_cons, List.filter_cons, List.filterMap_nil]
    norm_num
  have hwr : window_ranks [10] [("A", [((1 : ℤ), (100 : ℝ)), (2, 110)])] 2 ≠ [] := by
    simp only [window_ranks, List.filterMap_cons, List.filterMap_nil]
    rw [if_neg (by simpa [List.isEmpty_iff] using hmm)]
    simp
  ⟨by simp, hwr, final_rank_divides_by_window_count [10] _ 2 "A" (by simp) hwr⟩

/-! ### C4 -/

/-- C4: for a lookback window `L`, a model enters that window's
`model_metrics` exactly when its series keeps at least 2 points with
`target_date - L <= date <= target_date` (both endpoints inclusive), and its
`MetricSet` is then computed from the filtered values with `days` equal to
the number of filtered points, not the nominal `L`; a model with fewer than
2 surviving points is excluded from the window entirely. -/
theorem window_inclusive_filter_and_actual_days
    (backtest_data : List (String × List (ℤ × ℝ)))
    (target_date lookback_days : ℤ) (n : String) (ms : MetricSet) :
    (n, ms) ∈ window_metrics backtest_data target_date lookback_days ↔
      ∃ pts, (n, pts) ∈ backtest_data ∧
        2 ≤ (pts.filter fun p =>
              decide (target_date - lookback_days ≤ p.1 ∧ p.1 ≤ target_date)).length ∧
        ms = calculate_all_metrics
          ((pts.filter fun p =>
              decide (target_date - lookback_days ≤ p.1 ∧ p.1 ≤ target_date)).map Prod.snd)
          ((pts.filter fun p =>
              decide (target_date - lookback_days ≤ p.1 ∧ p.1 ≤ target_date)).length : ℤ) := by
  simp only [window_metrics, List.mem_filterMap]
  constructor
  · rintro ⟨⟨k, pts⟩, hmd, hf⟩
    by_cases hc : ((pts.filter fun p =>
        decide (target_date - lookback_days ≤ p.1 ∧ p.1 ≤ target_date)).isEmpty
        || decide ((pts.filter fun p =>
            decide (target_date - lookback_days ≤ p.1 ∧ p.1 ≤ target_date)).length < 2)) = true
    · rw [if_pos hc] at hf
      cases hf
    · rw [if_neg hc] at hf
      have hinj := Option.some_inj.mp hf
      rw [Prod.mk.injEq] at hinj
      obtain ⟨hk, hms⟩ := hinj
      subst hk
      refine ⟨pts, hmd, ?_, hms.symm⟩
      simp only [Bool.or_eq_true, List.isEmpty_iff, decide_eq_true_eq, not_or] at hc
      omega
  · rintro ⟨pts, hmem, hlen, hms⟩
    refine ⟨(n, pts), hmem, ?_⟩
    have hne : (pts.filter fun p =>
        decide (target_date - lookback_days ≤ p.1 ∧ p.1 ≤ target_date)) ≠ [] := by
      intro h
      rw [h] at hlen
      simp at hlen
    rw [if_neg (by simp only [Bool.or_eq_true, List.isEmpty_iff, decide_eq_true_eq,
          not_or]; exact ⟨hne, by omega⟩)]
    rw [hms]

theorem drawdown_step_eq (m d x : ℝ) :
    drawdown_step (m, d) x =
      (max m x, if 0 < max m x then max d ((max m x - x) / max m x) else d) := by
  unfold drawdown_step
  dsimp only
  have hmax : (if x > m then x else m) = max m x := by
    rcases le_total m x with h | h
    · rcases eq_or_lt_of_le h with h | h
      · simp [h]
      · rw [if_pos h, max_eq_right h.le]
    · rw [if_neg (not_lt.mpr h), max_eq_left h]
  rw [hmax]
  by_cases h : 0 < max m x
  · rw [if_pos h, if_pos h]
    congr 1
    rcases le_total ((max m x - x) / max m x) d with h2 | h2
    · rw [if_neg (not_lt.mpr h2), max_eq_left h2]
    · rcases eq_or_lt_of_le h2 with h2 | h2
      · simp [h2]
      · rw [if_pos h2, max_eq_right h2.le]
  · rw [if_neg h, if_neg h]

theorem dd_le_foldl_drawdown :
    ∀ (l : List ℝ) (m d : ℝ), d ≤ (l.foldl drawdown_step (m, d)).2
  | [], _, d => le_refl d
  | x :: xs, m, d => by
    simp only [List.foldl_cons, drawdown_step_eq]
    refine le_trans ?_ (dd_le_foldl_drawdown xs _ _)
    split_ifs with h
    · exact le_max_left d _
    · exact le_refl d

theorem foldl_drawdown_fst_le :
    ∀ (l : List ℝ) (m d B : ℝ), m ≤ B → (∀ x ∈ l, x ≤ B) →
      (l.foldl drawdown_step (m, d)).1 ≤ B
  | [], _, _, _, hm, _ => hm
  | x :: xs, m, d, B, hm, hl => by
    simp only [List.foldl_cons, drawdown_step_eq]
    exact foldl_drawdown_fst_le xs _ _ B
      (max_le hm (hl x (List.mem_cons_self x xs)))
      fun y hy => hl y (List.mem_cons_of_mem x hy)

theorem max_shuffle (d c R : ℝ) (hd : 0 ≤ d) :
    max (max d c) R = max d (max (max 0 c) R) := by
  simp only [max_def]
  split_ifs <;> linarith

theorem foldl_drawdown_snd_split :
    ∀ (l : List ℝ) (m d : ℝ), 0 ≤ d →
      (l.foldl drawdown_step (m, d)).2 = max d (l.foldl drawdown_step (m, 0)).2
  | [], _, d, hd => by simp [max_eq_left hd]
  | x :: xs, m, d, hd => by
    simp only [List.foldl_cons, drawdown_step_eq]
    by_cases hM : 0 < max m x
    · rw [if_pos hM, if_pos hM]
      have hd1 : (0 : ℝ) ≤ max d ((max m x - x) / max m x) := le_trans hd (le_max_left _ _)
      have hd0 : (0 : ℝ) ≤ max 0 ((max m x - x) / max m x) := le_max_left _ _
      rw [foldl_drawdown_snd_split xs (max m x) _ hd1,
        foldl_drawdown_snd_split xs (max m x) _ hd0]
      exact max_shuffle d _ _ hd
    · rw [if_neg hM, if_neg hM]
      exact foldl_drawdown_snd_split xs (max m x) d hd

theorem drawdown_step_pair (s : ℝ × ℝ) (x : ℝ) :
    drawdown_step s x =
      (max s.1 x, if 0 < max s.1 x then max s.2 ((max s.1 x - x) / max s.1 x) else s.2) :=
  drawdown_step_eq s.1 s.2 x

/-! ### C9 -/

/-- C9: `calculate_max_drawdown` is invariant under prepending a block of
values that stay at or below the original series' initial running peak and
whose own maximum drawdown does not exceed the original series' maximum
drawdown. -/
theorem max_drawdown_prepend_invariant (p : List ℝ) (v0 : ℝ) (vt : List ℝ)
    (hp : ∀ x ∈ p, x ≤ v0)
    (hdd : calculate_max_drawdown p ≤ calculate_max_drawdown (v0 :: vt)) :
    calculate_max_drawdown (p ++ v0 :: vt) = calculate_max_drawdown (v0 :: vt) := by
  have hR : calculate_max_drawdown (v0 :: vt) = (vt.foldl drawdown_step (v0, 0)).2 := by
    show ((v0 :: vt).foldl drawdown_step (v0, 0)).2 = _
    simp only [List.foldl_cons, drawdown_step_eq, max_self, sub_self, zero_div,
      max_self, ite_self]
  cases p with
  | nil => simp
  | cons p0 pt =>
    have hS1 : ((p0 :: pt).foldl drawdown_step (p0, 0)).1 ≤ v0 :=
      foldl_drawdown_fst_le (p0 :: pt) p0 0 v0 (hp p0 (List.mem_cons_self p0 pt)) hp
    have hS2 : (0 : ℝ) ≤ ((p0 :: pt).foldl drawdown_step (p0, 0)).2 :=
      dd_le_foldl_drawdown (p0 :: pt) p0 0
    have hL : calculate_max_drawdown ((p0 :: pt) ++ v0 :: vt) =
        ((v0 :: vt).foldl drawdown_step ((p0 :: pt).foldl drawdown_step (p0, 0))).2 := by
      show (((p0 :: pt) ++ v0 :: vt).foldl drawdown_step (p0, 0)).2 = _
      rw [List.foldl_append]
    rw [hL]
    have hSdd : ((p0 :: pt).foldl drawdown_step (p0, 0)).2 =
        calculate_max_drawdown (p0 :: pt) := rfl
    set S := (p0 :: pt).foldl drawdown_step (p0, 0) with hS
    simp only [List.foldl_cons, drawdown_step_pair]
    rw [max_eq_right hS1]
    simp only [sub_self, zero_div, max_eq_left hS2, ite_self]
    rw [foldl_drawdown_snd_split vt v0 S.2 hS2, ← hR]
    rw [← hSdd] at hdd
    exact max_eq_right hdd

/-- Witness for C9: prepending `[2, 1]` (peak 2, drawdown 1/2) to `[4, 2, 4]`
(peak 4, drawdown 1/2) leaves the maximum drawdown unchanged. -/
theorem max_drawdown_prepend_invariant_witness :
    ((2 : ℝ) ≤ 4 ∧ (1 : ℝ) ≤ 4) ∧
    calculate_max_drawdown [(2 : ℝ), 1] ≤ calculate_max_drawdown [(4 : ℝ), 2, 4] ∧
    calculate_max_drawdown ([(2 : ℝ), 1] ++ [(4 : ℝ), 2, 4]) =
      calculate_max_drawdown [(4 : ℝ), 2, 4] :=
  have hdd : calculate_max_drawdown [(2 : ℝ), 1] ≤
      calculate_max_drawdown [(4 : ℝ), 2, 4] := by
    norm_num [calculate_max_drawdown, List.foldl, drawdown_step_eq]
  ⟨⟨by norm_num, by norm_num⟩, hdd,
   max_drawdown_prepend_invariant [2, 1] 4 [2, 4]
     (by intro x hx; fin_cases hx <;> norm_num) hdd⟩

theorem findIdx_key_map (l : List (String × ℝ)) (n : String) :
    (l.findIdx fun p => p.1 == n) = (l.map Prod.fst).findIdx fun k => k == n := by
  induction l with
  | nil => rfl
  | cons p t ih =>
    simp only [List.map_cons, List.findIdx_cons, ih]

theorem map_findIdx_self {l : List String} (h : l.Nodup) :
    (l.map fun a => l.findIdx fun k => k == a) = List.range l.length := by
  induction l with
  | nil => rfl
  | cons a t ih =>
    rw [List.nodup_cons] at h
    simp only [List.map_cons, List.findIdx_cons, beq_self_eq_true, cond_true]
    have hmap : (t.map fun x => bif a == x then 0 else (t.findIdx fun k => k == x) + 1) =
        t.map fun x => (t.findIdx fun k => k == x) + 1 := by
      refine List.map_congr_left fun x hx => ?_
      have hax : (a == x) = false := by
        refine beq_eq_false_iff_ne.mpr fun haeq => h.1 (haeq ▸ hx)
      rw [hax]
      rfl
    rw [hmap, show (t.map fun x => (t.findIdx fun k => k == x) + 1) =
        ((t.map fun x => t.findIdx fun k => k == x).map fun i => i + 1) by
      rw [List.map_map]; rfl]
    rw [ih h.2, List.length_cons, List.range_succ_eq_map]

theorem sortedMetricValues_perm (mm : List (String × MetricSet)) (m : Metric) :
    (sortedMetricValues mm m).Perm (mm.map fun p => (p.1, metricGet p.2 m)) := by
  unfold sortedMetricValues
  split_ifs <;> exact List.perm_insertionSort _ _

theorem insertionSort_rankLE_head_le {lv : List (String × ℝ)} {h0 : String × ℝ}
    {t : List (String × ℝ)} (hs : List.insertionSort rankLE lv = h0 :: t) :
    ∀ x ∈ lv, h0.2 ≤ x.2 := by
  intro x hx
  have hsort := List.sorted_insertionSort rankLE lv
  rw [hs] at hsort
  have hxmem : x ∈ h0 :: t := by
    rw [← hs]
    exact ((List.perm_insertionSort rankLE lv).mem_iff).mpr hx
  rcases List.mem_cons.mp hxmem with rfl | hxt
  · exact le_refl _
  · exact (List.sorted_cons.mp hsort).1 x hxt

theorem insertionSort_rankGE_head_ge {lv : List (String × ℝ)} {h0 : String × ℝ}
    {t : List (String × ℝ)} (hs : List.insertionSort rankGE lv = h0 :: t) :
    ∀ x ∈ lv, x.2 ≤ h0.2 := by
  intro x hx
  have hsort := List.sorted_insertionSort rankGE lv
  rw [hs] at hsort
  have hxmem : x ∈ h0 :: t := by
    rw [← hs]
    exact ((List.perm_insertionSort rankGE lv).mem_iff).mpr hx
  rcases List.mem_cons.mp hxmem with rfl | hxt
  · exact le_refl _
  · exact (List.sorted_cons.mp hsort).1 x hxt

theorem metricRank_one_of_head {mm : List (String × MetricSet)} {m : Metric}
    {n : String} {h0 : String × ℝ} {t : List (String × ℝ)}
    (hs : sortedMetricValues mm m = h0 :: t) (hn : h0.1 = n) :
    metricRank mm m n = 1 := by
  unfold metricRank
  rw [hs, List.findIdx_cons, hn, beq_self_eq_true, cond_true]
  norm_num

theorem metricRank_one_of_strict_min_drawdown {mm : List (String × MetricSet)}
    {n : String} {ms : MetricSet} (hm : (n, ms) ∈ mm)
    (hstrict : ∀ q ∈ mm, q.1 ≠ n →
      metricGet ms Metric.max_drawdown < metricGet q.2 Metric.max_drawdown) :
    metricRank mm Metric.max_drawdown n = 1 := by
  have he : (n, metricGet ms Metric.max_drawdown) ∈
      mm.map fun p => (p.1, metricGet p.2 Metric.max_drawdown) :=
    List.mem_map_of_mem _ hm
  have hsv : sortedMetricValues mm Metric.max_drawdown =
      List.insertionSort rankLE
        (mm.map fun p => (p.1, metricGet p.2 Metric.max_drawdown)) := by
    unfold sortedMetricValues
    rw [if_pos rfl]
  rcases hs : List.insertionSort rankLE
      (mm.map fun p => (p.1, metricGet p.2 Metric.max_drawdown)) with _ | ⟨h0, t⟩
  · have hperm := List.perm_insertionSort rankLE
      (mm.map fun p => (p.1, metricGet p.2 Metric.max_drawdown))
    rw [hs] at hperm
    rw [hperm.symm.eq_nil] at he
    cases he
  · have hh0 : h0 ∈ mm.map fun p => (p.1, metricGet p.2 Metric.max_drawdown) := by
      have hperm := List.perm_insertionSort rankLE
        (mm.map fun p => (p.1, metricGet p.2 Metric.max_drawdown))
      rw [hs] at hperm
      exact hperm.mem_iff.mp (List.mem_cons_self h0 t)
    obtain ⟨q, hq, hqe⟩ := List.mem_map.mp hh0
    by_cases hqn : q.1 = n
    · exact metricRank_one_of_head (hsv.trans hs) (by rw [← hqe]; exact hqn)
    · exfalso
      have h1 : h0.2 ≤ metricGet ms Metric.max_drawdown :=
        insertionSort_rankLE_head_le hs _ he
      have h2 := hstrict q hq hqn
      have h3 : h0.2 = metricGet q.2 Metric.max_drawdown := by rw [← hqe]
      linarith

theorem metricRank_one_of_strict_max_other {mm : List (String × MetricSet)}
    {m : Metric} {n : String} {ms : MetricSet} (hm : (n, ms) ∈ mm)
    (hmne : m ≠ Metric.max_drawdown)
    (hstrict : ∀ q ∈ mm, q.1 ≠ n → metricGet q.2 m < metricGet ms m) :
    metricRank mm m n = 1 := by
  have he : (n, metricGet ms m) ∈ mm.map fun p => (p.1, metricGet p.2 m) :=
    List.mem_map_of_mem _ hm
  have hsv : sortedMetricValues mm m =
      List.insertionSort rankGE (mm.map fun p => (p.1, metricGet p.2 m)) := by
    unfold sortedMetricValues
    rw [if_neg hmne]
  rcases hs : List.insertionSort rankGE
      (mm.map fun p => (p.1, metricGet p.2 m)) with _ | ⟨h0, t⟩
  · have hperm := List.perm_insertionSort rankGE
      (mm.map fun p => (p.1, metricGet p.2 m))
    rw [hs] at hperm
    rw [hperm.symm.eq_nil] at he
    cases he
  · have hh0 : h0 ∈ mm.map fun p => (p.1, metricGet p.2 m) := by
      have hperm := List.perm_insertionSort rankGE
        (mm.map fun p => (p.1, metricGet p.2 m))
      rw [hs] at hperm
      exact hperm.mem_iff.mp (List.mem_cons_self h0 t)
    obtain ⟨q, hq, hqe⟩ := List.mem_map.mp hh0
    by_cases hqn : q.1 = n
    · exact metricRank_one_of_head (hsv.trans hs) (by rw [← hqe]; exact hqn)
    · exfalso
      have h1 : metricGet ms m ≤ h0.2 := insertionSort_rankGE_head_ge hs _ he
      have h2 := hstrict q hq hqn
      have h3 : h0.2 = metricGet q.2 m := by rw [← hqe]
      linarith

theorem lookupD_keymap (l : List (String × MetricSet)) (g : String → ℝ)
    (n : String) (hn : n ∈ l.map Prod.fst) :
    lookupD (l.map fun p => (p.1, g p.1)) n = g n := by
  induction l with
  | nil => cases hn
  | cons p t ih =>
    rcases p with ⟨k, ms⟩
    simp only [List.map_cons, lookupD_cons]
    by_cases h : k = n
    · rw [if_pos h, h]
    · rw [if_neg h]
      refine ih ?_
      rcases List.mem_cons.mp hn with h' | h'
      · exact absurd h'.symm h
      · exact h'

theorem metricRank_perm_range (mm : List (String × MetricSet)) (m : Metric)
    (hnd : (mm.map Prod.fst).Nodup) :
    ((mm.map Prod.fst).map fun k => metricRank mm m k).Perm
      ((List.range mm.length).map fun i : ℕ => ((i : ℝ) + 1)) := by
  have hkperm : ((sortedMetricValues mm m).map Prod.fst).Perm (mm.map Prod.fst) := by
    have h1 := (sortedMetricValues_perm mm m).map Prod.fst
    rw [List.map_map] at h1
    exact h1
  have hknd : ((sortedMetricValues mm m).map Prod.fst).Nodup :=
    hkperm.nodup_iff.mpr hnd
  have hrank : ∀ k : String, metricRank mm m k =
      ((((sortedMetricValues mm m).map Prod.fst).findIdx fun x => x == k : ℕ) : ℝ) + 1 := by
    intro k
    unfold metricRank
    rw [findIdx_key_map]
  have hlen : ((sortedMetricValues mm m).map Prod.fst).length = mm.length := by
    rw [List.length_map, (sortedMetricValues_perm mm m).length_eq, List.length_map]
  have hA : ((mm.map Prod.fst).map fun k => metricRank mm m k) =
      (((mm.map Prod.fst).map fun k =>
        ((sortedMetricValues mm m).map Prod.fst).findIdx fun x => x == k).map
          fun i : ℕ => ((i : ℝ) + 1)) := by
    simp only [List.map_map]
    refine List.map_congr_left fun p _ => ?_
    simp only [Function.comp]
    exact hrank p.1
  have hB : ((mm.map Prod.fst).map fun k =>
      ((sortedMetricValues mm m).map Prod.fst).findIdx fun x => x == k).Perm
      (List.range mm.length) := by
    have h2 := (hkperm.symm).map
      fun k => ((sortedMetricValues mm m).map Prod.fst).findIdx fun x => x == k
    rw [map_findIdx_self hknd, hlen] at h2
    exact h2
  rw [hA]
  exact hB.map _

/-! ### C6 -/

/-- C6: for non-empty `model_metrics` with N models, `rank_models` assigns per
metric the ranks 1..N by sorted position (ascending for `max_drawdown`,
descending for the other metrics, so absent ties the lowest-drawdown model
and the highest-valued model get rank 1) and returns for each model the
composite `Σ metric_rank * weight`; for empty input it returns the empty
map. -/
theorem rank_models_characterization (mm : List (String × MetricSet))
    (m : Metric) (n : String) (ms : MetricSet)
    (hnd : (mm.map Prod.fst).Nodup) (hm : (n, ms) ∈ mm) :
    rank_models [] = [] ∧
    lookupD (rank_models mm) n =
      (METRIC_WEIGHTS.map fun mw => metricRank mm mw.1 n * mw.2).sum ∧
    ((mm.map Prod.fst).map fun k => metricRank mm m k).Perm
      ((List.range mm.length).map fun i : ℕ => ((i : ℝ) + 1)) ∧
    ((∀ q ∈ mm, q.1 ≠ n →
        metricGet ms Metric.max_drawdown < metricGet q.2 Metric.max_drawdown) →
      metricRank mm Metric.max_drawdown n = 1) ∧
    (m ≠ Metric.max_drawdown →
      (∀ q ∈ mm, q.1 ≠ n → metricGet q.2 m < metricGet ms m) →
      metricRank mm m n = 1) := by
  refine ⟨rfl, ?_, metricRank_perm_range mm m hnd,
    fun hstrict => metricRank_one_of_strict_min_drawdown hm hstrict,
    fun hmne hstrict => metricRank_one_of_strict_max_other hm hmne hstrict⟩
  have := lookupD_keymap mm
    (fun k => (METRIC_WEIGHTS.map fun mw => metricRank mm mw.1 k * mw.2).sum) n
    (List.mem_map_of_mem Prod.fst hm)
  exact this

theorem sq_dev_le_sum {l : List ℝ} {b : ℝ} (hb : b ∈ l) (c : ℝ) :
    (b - c) ^ 2 ≤ (l.map fun r => (r - c) ^ 2).sum :=
  List.single_le_sum (fun x hx => by
      obtain ⟨r, _, rfl⟩ := List.mem_map.mp hx
      positivity) _
    (List.mem_map_of_mem _ hb)

theorem sum_sq_dev_pos {l : List ℝ} {a b : ℝ} (ha : a ∈ l) (hb : b ∈ l)
    (hab : a ≠ b) (c : ℝ) : 0 < (l.map fun r => (r - c) ^ 2).sum := by
  induction l with
  | nil => cases ha
  | cons x t ih =>
    simp only [List.map_cons, List.sum_cons]
    have hxb : ∀ y ∈ t, y ≠ x → 0 < (x - c) ^ 2 + (t.map fun r => (r - c) ^ 2).sum := by
      intro y hy hyx
      have h1 : (y - c) ^ 2 ≤ (t.map fun r => (r - c) ^ 2).sum := sq_dev_le_sum hy c
      have h2 : 0 < (x - y) ^ 2 := by
        have hne : x - y ≠ 0 := sub_ne_zero.mpr fun h => hyx (h.symm)
        positivity
      nlinarith [sq_nonneg (x - c), sq_nonneg (y - c)]
    rcases List.mem_cons.mp ha with rfl | hat
    · rcases List.mem_cons.mp hb with rfl | hbt
      · exact absurd rfl hab
      · exact hxb b hbt (Ne.symm hab)
    · rcases List.mem_cons.mp hb with rfl | hbt
      · exact hxb a hat hab
      · have := ih hat hbt
        nlinarith [sq_nonneg (x - c)]

theorem daily_rf_zero : (1 + (0 : ℝ)) ^ ((1 : ℝ) / 252) - 1 = 0 := by
  rw [add_zero, Real.one_rpow, sub_self]

theorem returns_length_pos {values : ValueSeries} (hne : calculate_returns values ≠ []) :
    0 < ((calculate_returns values).length : ℝ) := by
  have := List.length_pos.mpr hne
  positivity

theorem sharpe_pos_of_pos_returns (values : ValueSeries) {a b : ℝ}
    (hpos : ∀ r ∈ calculate_returns values, 0 < r)
    (ha : a ∈ calculate_returns values) (hb : b ∈ calculate_returns values)
    (hab : a ≠ b) : 0 < calculate_sharpe_ratio values 0 := by
  have hne : calculate_returns values ≠ [] := fun h => by rw [h] at ha; cases ha
  have hlen := returns_length_pos hne
  unfold calculate_sharpe_ratio
  rw [if_neg (by simpa [List.isEmpty_iff] using hne)]
  have hmean : 0 < (calculate_returns values).sum / ((calculate_returns values).length : ℝ) :=
    div_pos (List.sum_pos _ hpos hne) hlen
  have hvar : 0 <
      ((calculate_returns values).map fun r =>
        (r - (calculate_returns values).sum / ((calculate_returns values).length : ℝ)) ^ 2).sum /
        ((calculate_returns values).length : ℝ) :=
    div_pos (sum_sq_dev_pos ha hb hab _) hlen
  rw [if_neg (ne_of_gt (Real.sqrt_pos.mpr hvar))]
  rw [daily_rf_zero]
  dsimp only
  rw [sub_zero]
  exact mul_pos (div_pos hmean (Real.sqrt_pos.mpr hvar))
    (Real.sqrt_pos.mpr (by norm_num))

theorem list_sum_neg : ∀ (l : List ℝ), (∀ x ∈ l, x < 0) → l ≠ [] → l.sum < 0
  | [], _, h => absurd rfl h
  | [x], h, _ => by simpa using h x (by simp)
  | x :: y :: t, h, _ => by
    rw [List.sum_cons]
    have h1 := h x (List.mem_cons_self _ _)
    have h2 := list_sum_neg (y :: t)
      (fun z hz => h z (List.mem_cons_of_mem _ hz)) (by simp)
    linarith

theorem sharpe_neg_of_neg_returns (values : ValueSeries) {a b : ℝ}
    (hneg : ∀ r ∈ calculate_returns values, r < 0)
    (ha : a ∈ calculate_returns values) (hb : b ∈ calculate_returns values)
    (hab : a ≠ b) : calculate_sharpe_ratio values 0 < 0 := by
  have hne : calculate_returns values ≠ [] := fun h => by rw [h] at ha; cases ha
  have hlen := returns_length_pos hne
  unfold calculate_sharpe_ratio
  rw [if_neg (by simpa [List.isEmpty_iff] using hne)]
  have hmean : (calculate_returns values).sum / ((calculate_returns values).length : ℝ) < 0 :=
    div_neg_of_neg_of_pos (list_sum_neg _ hneg hne) hlen
  have hvar : 0 <
      ((calculate_returns values).map fun r =>
        (r - (calculate_returns values).sum / ((calculate_returns values).length : ℝ)) ^ 2).sum /
        ((calculate_returns values).length : ℝ) :=
    div_pos (sum_sq_dev_pos ha hb hab _) hlen
  rw [if_neg (ne_of_gt (Real.sqrt_pos.mpr hvar))]
  rw [daily_rf_zero]
  dsimp only
  rw [sub_zero]
  exact mul_neg_of_neg_of_pos
    (div_neg_of_neg_of_pos hmean (Real.sqrt_pos.mpr hvar))
    (Real.sqrt_pos.mpr (by norm_num))

theorem filter_not_lt_nil (l : List ℝ) (c : ℝ) (h : ∀ r ∈ l, ¬ r < c) :
    (l.filter fun r => decide (r < c)) = [] := by
  induction l with
  | nil => rfl
  | cons x t ih =>
    simp only [List.filter_cons]
    rw [decide_eq_false (h x (List.mem_cons_self _ _))]
    simp only [Bool.false_eq_true, if_false]
    exact ih fun r hr => h r (List.mem_cons_of_mem _ hr)

theorem filter_lt_all (l : List ℝ) (c : ℝ) (h : ∀ r ∈ l, r < c) :
    (l.filter fun r => decide (r < c)) = l := by
  induction l with
  | nil => rfl
  | cons x t ih =>
    simp only [List.filter_cons]
    rw [decide_eq_true (h x (List.mem_cons_self _ _))]
    simp only [if_true]
    rw [ih fun r hr => h r (List.mem_cons_of_mem _ hr)]

theorem sortino_zero_of_no_downside (values : ValueSeries)
    (h : ∀ r ∈ calculate_returns values, 0 ≤ r) :
    calculate_sortino_ratio values 0 = 0 := by
  unfold calculate_sortino_ratio
  by_cases hne : calculate_returns values = []
  · rw [if_pos (by simp [hne])]
  · rw [if_neg (by simpa [List.isEmpty_iff] using hne)]
    rw [daily_rf_zero]
    dsimp only
    rw [filter_not_lt_nil _ 0 fun r hr => not_lt.mpr (h r hr)]
    simp

theorem sortino_neg_of_neg_returns (values : ValueSeries)
    (hneg : ∀ r ∈ calculate_returns values, r < 0)
    (hne : calculate_returns values ≠ []) :
    calculate_sortino_ratio values 0 < 0 := by
  have hlen := returns_length_pos hne
  unfold calculate_sortino_ratio
  rw [if_neg (by simpa [List.isEmpty_iff] using hne)]
  rw [daily_rf_zero]
  dsimp only
  rw [filter_lt_all _ 0 hneg]
  rw [if_neg (by simpa [List.isEmpty_iff] using hne)]
  have hvar : 0 <
      ((calculate_returns values).map fun r => (r - 0) ^ 2).sum /
        ((calculate_returns values).length : ℝ) := by
    refine div_pos (List.sum_pos _ (fun x hx => ?_) (by simpa using hne)) hlen
    obtain ⟨r, hr, rfl⟩ := List.mem_map.mp hx
    have hr0 : r ≠ 0 := ne_of_lt (hneg r hr)
    rw [sub_zero]
    exact sq_pos_of_ne_zero hr0
  rw [if_neg (ne_of_gt (Real.sqrt_pos.mpr hvar))]
  have hmean : (calculate_returns values).sum / ((calculate_returns values).length : ℝ) - 0 < 0 := by
    rw [sub_zero]
    exact div_neg_of_neg_of_pos (list_sum_neg _ hneg hne) hlen
  exact mul_neg_of_neg_of_pos
    (div_neg_of_neg_of_pos hmean (Real.sqrt_pos.mpr hvar))
    (Real.sqrt_pos.mpr (by norm_num))

theorem annual_return_pos_of_growth (v0 : ℝ) (rest : List ℝ) (days : ℤ)
    (hv0 : 0 < v0) (hlast : v0 < (v0 :: rest).getLastD 0) (hdays : 0 < days)
    (hlen : 2 ≤ (v0 :: rest).length) :
    0 < calculate_annual_return (v0 :: rest) days := by
  unfold calculate_annual_return
  rw [if_neg (by push_neg; exact ⟨by simp, by omega, by omega⟩)]
  dsimp only
  simp only [List.headD_cons]
  rw [if_neg (not_le.mpr hv0)]
  have hyears : 0 < (days : ℝ) / 252 := by
    have : (0 : ℝ) < (days : ℝ) := by exact_mod_cast hdays
    positivity
  rw [if_neg (not_le.mpr hyears)]
  have h1 : 1 < 1 + ((v0 :: rest).getLastD 0 - v0) / v0 := by
    have : 0 < ((v0 :: rest).getLastD 0 - v0) / v0 := div_pos (by linarith) hv0
    linarith
  have h2 := (Real.one_lt_rpow_iff_of_pos (by linarith)).mpr
    (Or.inl ⟨h1, one_div_pos.mpr hyears⟩)
  linarith

theorem annual_return_neg_of_decline (v0 : ℝ) (rest : List ℝ) (days : ℤ)
    (hv0 : 0 < v0) (hlast0 : 0 < (v0 :: rest).getLastD 0)
    (hlast : (v0 :: rest).getLastD 0 < v0) (hdays : 0 < days)
    (hlen : 2 ≤ (v0 :: rest).length) :
    calculate_annual_return (v0 :: rest) days < 0 := by
  unfold calculate_annual_return
  rw [if_neg (by push_neg; exact ⟨by simp, by omega, by omega⟩)]
  dsimp only
  simp only [List.headD_cons]
  rw [if_neg (not_le.mpr hv0)]
  have hyears : 0 < (days : ℝ) / 252 := by
    have : (0 : ℝ) < (days : ℝ) := by exact_mod_cast hdays
    positivity
  rw [if_neg (not_le.mpr hyears)]
  have hquot : ((v0 :: rest).getLastD 0 - v0) / v0 =
      (v0 :: rest).getLastD 0 / v0 - 1 := by
    rw [sub_div, div_self (ne_of_gt hv0)]
  have hxpos : 0 < 1 + ((v0 :: rest).getLastD 0 - v0) / v0 := by
    rw [hquot]
    have : 0 < (v0 :: rest).getLastD 0 / v0 := div_pos hlast0 hv0
    linarith
  have hx1 : 1 + ((v0 :: rest).getLastD 0 - v0) / v0 < 1 := by
    have : ((v0 :: rest).getLastD 0 - v0) / v0 < 0 :=
      div_neg_of_neg_of_pos (by linarith) hv0
    linarith
  have h2 := Real.rpow_lt_one (le_of_lt hxpos) hx1 (one_div_pos.mpr hyears)
  linarith

theorem max_drawdown_nonneg (values : ValueSeries) :
    0 ≤ calculate_max_drawdown values := by
  cases values with
  | nil => norm_num [calculate_max_drawdown]
  | cons v rest => exact dd_le_foldl_drawdown (v :: rest) v 0

theorem calmar_zero_of_no_drawdown (values : ValueSeries) (days : ℤ)
    (h : calculate_max_drawdown values = 0) :
    calculate_calmar_ratio values days = 0 := by
  unfold calculate_calmar_ratio
  dsimp only
  rw [h]
  simp

theorem calmar_nonpos_of_neg_return (values : ValueSeries) (days : ℤ)
    (har : calculate_annual_return values days < 0) :
    calculate_calmar_ratio values days ≤ 0 := by
  unfold calculate_calmar_ratio
  dsimp only
  by_cases h : calculate_max_drawdown values = 0
  · rw [if_pos h]
  · rw [if_neg h]
    have hpos : 0 < calculate_max_drawdown values :=
      lt_of_le_of_ne (max_drawdown_nonneg values) (Ne.symm h)
    exact le_of_lt (div_neg_of_neg_of_pos har hpos)

theorem insertionSort_pair {α : Type} (r : α → α → Prop) [DecidableRel r]
    (x y : α) :
    List.insertionSort r [x, y] = if r x y then [x, y] else [y, x] := by
  simp only [List.insertionSort, List.orderedInsert]

theorem sortedMetricValues_pair (n1 n2 : String) (ms1 ms2 : MetricSet) (m : Metric)
    (hmdd : m = Metric.max_drawdown → metricGet ms1 m ≤ metricGet ms2 m)
    (hother : m ≠ Metric.max_drawdown → metricGet ms2 m ≤ metricGet ms1 m) :
    sortedMetricValues [(n1, ms1), (n2, ms2)] m =
      [(n1, metricGet ms1 m), (n2, metricGet ms2 m)] := by
  unfold sortedMetricValues
  dsimp only [List.map_cons, List.map_nil]
  by_cases hm : m = Metric.max_drawdown
  · rw [if_pos hm, insertionSort_pair,
      if_pos (show rankLE (n1, metricGet ms1 m) (n2, metricGet ms2 m) from hmdd hm)]
  · rw [if_neg hm, insertionSort_pair,
      if_pos (show rankGE (n1, metricGet ms1 m) (n2, metricGet ms2 m) from hother hm)]

theorem metricRank_pair_one {mm : List (String × MetricSet)} {m : Metric}
    {n1 n2 : String} {a b : ℝ}
    (hs : sortedMetricValues mm m = [(n1, a), (n2, b)]) :
    metricRank mm m n1 = 1 :=
  metricRank_one_of_head hs rfl

theorem metricRank_pair_two {mm : List (String × MetricSet)} {m : Metric}
    {n1 n2 : String} {a b : ℝ}
    (hs : sortedMetricValues mm m = [(n1, a), (n2, b)]) (hne : n1 ≠ n2) :
    metricRank mm m n2 = 2 := by
  unfold metricRank
  rw [hs, List.findIdx_cons]
  have h1 : ((n1, a).1 == n2) = false := by simpa using hne
  rw [h1]
  simp only [cond_false, List.findIdx_cons, beq_self_eq_true, cond_true]
  push_cast
  norm_num

theorem foldl_drawdown_of_nondecr :
    ∀ (l : List ℝ) (m : ℝ), List.Chain (· ≤ ·) m l →
      (l.foldl drawdown_step (m, 0)).2 = 0
  | [], _, _ => rfl
  | x :: xs, m, h => by
    rw [List.chain_cons] at h
    simp only [List.foldl_cons, drawdown_step_eq]
    rw [max_eq_right h.1, sub_self, zero_div]
    simp only [max_self, ite_self]
    exact foldl_drawdown_of_nondecr xs x h.2

theorem max_drawdown_of_chain_le (v : ℝ) (rest : List ℝ)
    (h : List.Chain (· ≤ ·) v rest) :
    calculate_max_drawdown (v :: rest) = 0 := by
  show ((v :: rest).foldl drawdown_step (v, 0)).2 = 0
  simp only [List.foldl_cons, drawdown_step_eq, max_self, sub_self, zero_div, ite_self]
  exact foldl_drawdown_of_nondecr rest v h

/-- Witness for C6 at a concrete one-model `model_metrics`. -/
theorem rank_models_characterization_witness :
    ((([("A", MetricSet.mk 0 0 0 0 0)].map Prod.fst).Nodup) ∧
      ("A", MetricSet.mk 0 0 0 0 0) ∈ [("A", MetricSet.mk 0 0 0 0 0)]) ∧
    (rank_models [] = [] ∧
     lookupD (rank_models [("A", MetricSet.mk 0 0 0 0 0)]) "A" =
       (METRIC_WEIGHTS.map fun mw =>
         metricRank [("A", MetricSet.mk 0 0 0 0 0)] mw.1 "A" * mw.2).sum ∧
     (([("A", MetricSet.mk 0 0 0 0 0)].map Prod.fst).map fun k =>
        metricRank [("A", MetricSet.mk 0 0 0 0 0)] Metric.sharpe_ratio k).Perm
       ((List.range [("A", MetricSet.mk 0 0 0 0 0)].length).map
         fun i : ℕ => ((i : ℝ) + 1)) ∧
     ((∀ q ∈ [("A", MetricSet.mk 0 0 0 0 0)], q.1 ≠ "A" →
         metricGet (MetricSet.mk 0 0 0 0 0) Metric.max_drawdown <
           metricGet q.2 Metric.max_drawdown) →
       metricRank [("A", MetricSet.mk 0 0 0 0 0)] Metric.max_drawdown "A" = 1) ∧
     (Metric.sharpe_ratio ≠ Metric.max_drawdown →
       (∀ q ∈ [("A", MetricSet.mk 0 0 0 0 0)], q.1 ≠ "A" →
         metricGet q.2 Metric.sharpe_ratio <
           metricGet (MetricSet.mk 0 0 0 0 0) Metric.sharpe_ratio) →
       metricRank [("A", MetricSet.mk 0 0 0 0 0)] Metric.sharpe_ratio "A" = 1)) :=
  ⟨⟨by simp, List.mem_cons_self _ _⟩,
   rank_models_characterization [("A", MetricSet.mk 0 0 0 0 0)]
     Metric.sharpe_ratio "A" (MetricSet.mk 0 0 0 0 0) (by simp)
     (List.mem_cons_self _ _)⟩

/-! ### C3 -/

set_option maxHeartbeats 2000000 in
/-- C3: with `lookback_periods = [30]`, model "A" rising 100..129 and model
"B" falling 100..71 over the same 30 days, `select_best_model` at the last
day selects "A" with strictly positive confidence. -/
theorem scenario_trending_selects_A :
    (select_best_model [30] scenario_backtest 30).1 = "A" ∧
    0 < (select_best_model [30] scenario_backtest 30).2.1 := by
  have hABne : ("A" : String) ≠ "B" := by decide
  have hwm : window_metrics scenario_backtest 30 30 =
      [("A", calculate_all_metrics [100, 101, 102, 103, 104, 105, 106, 107, 108, 109, 110, 111, 112, 113, 114, 115, 116, 117, 118, 119, 120, 121, 122, 123, 124, 125, 126, 127, 128, 129] 30), ("B", calculate_all_metrics [100, 99, 98, 97, 96, 95, 94, 93, 92, 91, 90, 89, 88, 87, 86, 85, 84, 83, 82, 81, 80, 79, 78, 77, 76, 75, 74, 73, 72, 71] 30)] := rfl
  have hretA : calculate_returns [100, 101, 102, 103, 104, 105, 106, 107, 108, 109, 110, 111, 112, 113, 114, 115, 116, 117, 118, 119, 120, 121, 122, 123, 124, 125, 126, 127, 128, 129] = [1/100, 1/101, 1/102, 1/103, 1/104, 1/105, 1/106, 1/107, 1/108, 1/109, 1/110, 1/111, 1/112, 1/113, 1/114, 1/115, 1/116, 1/117, 1/118, 1/119, 1/120, 1/121, 1/122, 1/123, 1/124, 1/125, 1/126, 1/127, 1/128] := by
    norm_num [calculate_returns]
  have hretB : calculate_returns [100, 99, 98, 97, 96, 95, 94, 93, 92, 91, 90, 89, 88, 87, 86, 85, 84, 83, 82, 81, 80, 79, 78, 77, 76, 75, 74, 73, 72, 71] = [-(1/100), -(1/99), -(1/98), -(1/97), -(1/96), -(1/95), -(1/94), -(1/93), -(1/92), -(1/91), -(1/90), -(1/89), -(1/88), -(1/87), -(1/86), -(1/85), -(1/84), -(1/83), -(1/82), -(1/81), -(1/80), -(1/79), -(1/78), -(1/77), -(1/76), -(1/75), -(1/74), -(1/73), -(1/72)] := by
    norm_num [calculate_returns]
  have hposA : ∀ r ∈ calculate_returns [100, 101, 102, 103, 104, 105, 106, 107, 108, 109, 110, 111, 112, 113, 114, 115, 116, 117, 118, 119, 120, 121, 122, 123, 124, 125, 126, 127, 128, 129], (0:ℝ) < r := by
    rw [hretA]
    intro r hr
    fin_cases hr <;> norm_num
  have hnegB : ∀ r ∈ calculate_returns [100, 99, 98, 97, 96, 95, 94, 93, 92, 91, 90, 89, 88, 87, 86, 85, 84, 83, 82, 81, 80, 79, 78, 77, 76, 75, 74, 73, 72, 71], r < (0:ℝ) := by
    rw [hretB]
    intro r hr
    fin_cases hr <;> norm_num
  have harA : 0 < calculate_annual_return [100, 101, 102, 103, 104, 105, 106, 107, 108, 109, 110, 111, 112, 113, 114, 115, 116, 117, 118, 119, 120, 121, 122, 123, 124, 125, 126, 127, 128, 129] 30 := by
    refine annual_return_pos_of_growth 100 [101, 102, 103, 104, 105, 106, 107, 108, 109, 110, 111, 112, 113, 114, 115, 116, 117, 118, 119, 120, 121, 122, 123, 124, 125, 126, 127, 128, 129] 30 (by norm_num) ?_ (by norm_num) (by simp)
    rw [show (((100:ℝ) :: [101, 102, 103, 104, 105, 106, 107, 108, 109, 110, 111, 112, 113, 114, 115, 116, 117, 118, 119, 120, 121, 122, 123, 124, 125, 126, 127, 128, 129]).getLastD 0) = 129 from rfl]
    norm_num
  have harB : calculate_annual_return [100, 99, 98, 97, 96, 95, 94, 93, 92, 91, 90, 89, 88, 87, 86, 85, 84, 83, 82, 81, 80, 79, 78, 77, 76, 75, 74, 73, 72, 71] 30 < 0 := by
    refine annual_return_neg_of_decline 100 [99, 98, 97, 96, 95, 94, 93, 92, 91, 90, 89, 88, 87, 86, 85, 84, 83, 82, 81, 80, 79, 78, 77, 76, 75, 74, 73, 72, 71] 30 (by norm_num) ?_ ?_ (by norm_num) (by simp)
    · rw [show (((100:ℝ) :: [99, 98, 97, 96, 95, 94, 93, 92, 91, 90, 89, 88, 87, 86, 85, 84, 83, 82, 81, 80, 79, 78, 77, 76, 75, 74, 73, 72, 71]).getLastD 0) = 71 from rfl]
      norm_num
    · rw [show (((100:ℝ) :: [99, 98, 97, 96, 95, 94, 93, 92, 91, 90, 89, 88, 87, 86, 85, 84, 83, 82, 81, 80, 79, 78, 77, 76, 75, 74, 73, 72, 71]).getLastD 0) = 71 from rfl]
      norm_num
  have hshA : 0 < calculate_sharpe_ratio [100, 101, 102, 103, 104, 105, 106, 107, 108, 109, 110, 111, 112, 113, 114, 115, 116, 117, 118, 119, 120, 121, 122, 123, 124, 125, 126, 127, 128, 129] 0 :=
    @sharpe_pos_of_pos_returns [100, 101, 102, 103, 104, 105, 106, 107, 108, 109, 110, 111, 112, 113, 114, 115, 116, 117, 118, 119, 120, 121, 122, 123, 124, 125, 126, 127, 128, 129] (1/100) (1/101) hposA
      (by rw [hretA]; simp) (by rw [hretA]; simp) (by norm_num)
  have hshB : calculate_sharpe_ratio [100, 99, 98, 97, 96, 95, 94, 93, 92, 91, 90, 89, 88, 87, 86, 85, 84, 83, 82, 81, 80, 79, 78, 77, 76, 75, 74, 73, 72, 71] 0 < 0 :=
    @sharpe_neg_of_neg_returns [100, 99, 98, 97, 96, 95, 94, 93, 92, 91, 90, 89, 88, 87, 86, 85, 84, 83, 82, 81, 80, 79, 78, 77, 76, 75, 74, 73, 72, 71] (-(1/100)) (-(1/99)) hnegB
      (by rw [hretB]; simp) (by rw [hretB]; simp) (by norm_num)
  have hsoA : calculate_sortino_ratio [100, 101, 102, 103, 104, 105, 106, 107, 108, 109, 110, 111, 112, 113, 114, 115, 116, 117, 118, 119, 120, 121, 122, 123, 124, 125, 126, 127, 128, 129] 0 = 0 :=
    sortino_zero_of_no_downside _ fun r hr => le_of_lt (hposA r hr)
  have hneB : calculate_returns [100, 99, 98, 97, 96, 95, 94, 93, 92, 91, 90, 89, 88, 87, 86, 85, 84, 83, 82, 81, 80, 79, 78, 77, 76, 75, 74, 73, 72, 71] ≠ [] := by
    rw [hretB]
    simp
  have hsoB : calculate_sortino_ratio [100, 99, 98, 97, 96, 95, 94, 93, 92, 91, 90, 89, 88, 87, 86, 85, 84, 83, 82, 81, 80, 79, 78, 77, 76, 75, 74, 73, 72, 71] 0 < 0 :=
    sortino_neg_of_neg_returns _ hnegB hneB
  have hmddA : calculate_max_drawdown [100, 101, 102, 103, 104, 105, 106, 107, 108, 109, 110, 111, 112, 113, 114, 115, 116, 117, 118, 119, 120, 121, 122, 123, 124, 125, 126, 127, 128, 129] = 0 := by
    refine max_drawdown_of_chain_le 100 [101, 102, 103, 104, 105, 106, 107, 108, 109, 110, 111, 112, 113, 114, 115, 116, 117, 118, 119, 120, 121, 122, 123, 124, 125, 126, 127, 128, 129] ?_
    norm_num [List.chain_cons]
  have hmddB0 : 0 ≤ calculate_max_drawdown [100, 99, 98, 97, 96, 95, 94, 93, 92, 91, 90, 89, 88, 87, 86, 85, 84, 83, 82, 81, 80, 79, 78, 77, 76, 75, 74, 73, 72, 71] := max_drawdown_nonneg _
  have hcalA : calculate_calmar_ratio [100, 101, 102, 103, 104, 105, 106, 107, 108, 109, 110, 111, 112, 113, 114, 115, 116, 117, 118, 119, 120, 121, 122, 123, 124, 125, 126, 127, 128, 129] 30 = 0 :=
    calmar_zero_of_no_drawdown _ _ hmddA
  have hcalB : calculate_calmar_ratio [100, 99, 98, 97, 96, 95, 94, 93, 92, 91, 90, 89, 88, 87, 86, 85, 84, 83, 82, 81, 80, 79, 78, 77, 76, 75, 74, 73, 72, 71] 30 ≤ 0 :=
    calmar_nonpos_of_neg_return _ _ harB
  have hp_ar : sortedMetricValues [("A", calculate_all_metrics [100, 101, 102, 103, 104, 105, 106, 107, 108, 109, 110, 111, 112, 113, 114, 115, 116, 117, 118, 119, 120, 121, 122, 123, 124, 125, 126, 127, 128, 129] 30), ("B", calculate_all_metrics [100, 99, 98, 97, 96, 95, 94, 93, 92, 91, 90, 89, 88, 87, 86, 85, 84, 83, 82, 81, 80, 79, 78, 77, 76, 75, 74, 73, 72, 71] 30)] Metric.annual_return =
      [("A", metricGet (calculate_all_metrics [100, 101, 102, 103, 104, 105, 106, 107, 108, 109, 110, 111, 112, 113, 114, 115, 116, 117, 118, 119, 120, 121, 122, 123, 124, 125, 126, 127, 128, 129] 30) Metric.annual_return),
       ("B", metricGet (calculate_all_metrics [100, 99, 98, 97, 96, 95, 94, 93, 92, 91, 90, 89, 88, 87, 86, 85, 84, 83, 82, 81, 80, 79, 78, 77, 76, 75, 74, 73, 72, 71] 30) Metric.annual_return)] :=
    sortedMetricValues_pair _ _ _ _ _ (fun h => absurd h (by decide))
      (fun _ => le_of_lt (lt_trans harB harA))
  have hp_sh : sortedMetricValues [("A", calculate_all_metrics [100, 101, 102, 103, 104, 105, 106, 107, 108, 109, 110, 111, 112, 113, 114, 115, 116, 117, 118, 119, 120, 121, 122, 123, 124, 125, 126, 127, 128, 129] 30), ("B", calculate_all_metrics [100, 99, 98, 97, 96, 95, 94, 93, 92, 91, 90, 89, 88, 87, 86, 85, 84, 83, 82, 81, 80, 79, 78, 77, 76, 75, 74, 73, 72, 71] 30)] Metric.sharpe_ratio =
      [("A", metricGet (calculate_all_metrics [100, 101, 102, 103, 104, 105, 106, 107, 108, 109, 110, 111, 112, 113, 114, 115, 116, 117, 118, 119, 120, 121, 122, 123, 124, 125, 126, 127, 128, 129] 30) Metric.sharpe_ratio),
       ("B", metricGet (calculate_all_metrics [100, 99, 98, 97, 96, 95, 94, 93, 92, 91, 90, 89, 88, 87, 86, 85, 84, 83, 82, 81, 80, 79, 78, 77, 76, 75, 74, 73, 72, 71] 30) Metric.sharpe_ratio)] :=
    sortedMetricValues_pair _ _ _ _ _ (fun h => absurd h (by decide))
      (fun _ => le_of_lt (lt_trans hshB hshA))
  have hp_mdd : sortedMetricValues [("A", calculate_all_metrics [100, 101, 102, 103, 104, 105, 106, 107, 108, 109, 110, 111, 112, 113, 114, 115, 116, 117, 118, 119, 120, 121, 122, 123, 124, 125, 126, 127, 128, 129] 30), ("B", calculate_all_metrics [100, 99, 98, 97, 96, 95, 94, 93, 92, 91, 90, 89, 88, 87, 86, 85, 84, 83, 82, 81, 80, 79, 78, 77, 76, 75, 74, 73, 72, 71] 30)] Metric.max_drawdown =
      [("A", metricGet (calculate_all_metrics [100, 101, 102, 103, 104, 105, 106, 107, 108, 109, 110, 111, 112, 113, 114, 115, 116, 117, 118, 119, 120, 121, 122, 123, 124, 125, 126, 127, 128, 129] 30) Metric.max_drawdown),
       ("B", metricGet (calculate_all_metrics [100, 99, 98, 97, 96, 95, 94, 93, 92, 91, 90, 89, 88, 87, 86, 85, 84, 83, 82, 81, 80, 79, 78, 77, 76, 75, 74, 73, 72, 71] 30) Metric.max_drawdown)] :=
    sortedMetricValues_pair _ _ _ _ _
      (fun _ => by
        show calculate_max_drawdown [100, 101, 102, 103, 104, 105, 106, 107, 108, 109, 110, 111, 112, 113, 114, 115, 116, 117, 118, 119, 120, 121, 122, 123, 124, 125, 126, 127, 128, 129] ≤ calculate_max_drawdown [100, 99, 98, 97, 96, 95, 94, 93, 92, 91, 90, 89, 88, 87, 86, 85, 84, 83, 82, 81, 80, 79, 78, 77, 76, 75, 74, 73, 72, 71]
        rw [hmddA]
        exact hmddB0)
      (fun h => absurd rfl h)
  have hp_so : sortedMetricValues [("A", calculate_all_metrics [100, 101, 102, 103, 104, 105, 106, 107, 108, 109, 110, 111, 112, 113, 114, 115, 116, 117, 118, 119, 120, 121, 122, 123, 124, 125, 126, 127, 128, 129] 30), ("B", calculate_all_metrics [100, 99, 98, 97, 96, 95, 94, 93, 92, 91, 90, 89, 88, 87, 86, 85, 84, 83, 82, 81, 80, 79, 78, 77, 76, 75, 74, 73, 72, 71] 30)] Metric.sortino_ratio =
      [("A", metricGet (calculate_all_metrics [100, 101, 102, 103, 104, 105, 106, 107, 108, 109, 110, 111, 112, 113, 114, 115, 116, 117, 118, 119, 120, 121, 122, 123, 124, 125, 126, 127, 128, 129] 30) Metric.sortino_ratio),
       ("B", metricGet (calculate_all_metrics [100, 99, 98, 97, 96, 95, 94, 93, 92, 91, 90, 89, 88, 87, 86, 85, 84, 83, 82, 81, 80, 79, 78, 77, 76, 75, 74, 73, 72, 71] 30) Metric.sortino_ratio)] :=
    sortedMetricValues_pair _ _ _ _ _ (fun h => absurd h (by decide))
      (fun _ => by
        show calculate_sortino_ratio [100, 99, 98, 97, 96, 95, 94, 93, 92, 91, 90, 89, 88, 87, 86, 85, 84, 83, 82, 81, 80, 79, 78, 77, 76, 75, 74, 73, 72, 71] 0 ≤ calculate_sortino_ratio [100, 101, 102, 103, 104, 105, 106, 107, 108, 109, 110, 111, 112, 113, 114, 115, 116, 117, 118, 119, 120, 121, 122, 123, 124, 125, 126, 127, 128, 129] 0
        rw [hsoA]
        exact le_of_lt hsoB)
  have hp_cal : sortedMetricValues [("A", calculate_all_metrics [100, 101, 102, 103, 104, 105, 106, 107, 108, 109, 110, 111, 112, 113, 114, 115, 116, 117, 118, 119, 120, 121, 122, 123, 124, 125, 126, 127, 128, 129] 30), ("B", calculate_all_metrics [100, 99, 98, 97, 96, 95, 94, 93, 92, 91, 90, 89, 88, 87, 86, 85, 84, 83, 82, 81, 80, 79, 78, 77, 76, 75, 74, 73, 72, 71] 30)] Metric.calmar_ratio =
      [("A", metricGet (calculate_all_metrics [100, 101, 102, 103, 104, 105, 106, 107, 108, 109, 110, 111, 112, 113, 114, 115, 116, 117, 118, 119, 120, 121, 122, 123, 124, 125, 126, 127, 128, 129] 30) Metric.calmar_ratio),
       ("B", metricGet (calculate_all_metrics [100, 99, 98, 97, 96, 95, 94, 93, 92, 91, 90, 89, 88, 87, 86, 85, 84, 83, 82, 81, 80, 79, 78, 77, 76, 75, 74, 73, 72, 71] 30) Metric.calmar_ratio)] :=
    sortedMetricValues_pair _ _ _ _ _ (fun h => absurd h (by decide))
      (fun _ => by
        show calculate_calmar_ratio [100, 99, 98, 97, 96, 95, 94, 93, 92, 91, 90, 89, 88, 87, 86, 85, 84, 83, 82, 81, 80, 79, 78, 77, 76, 75, 74, 73, 72, 71] 30 ≤ calculate_calmar_ratio [100, 101, 102, 103, 104, 105, 106, 107, 108, 109, 110, 111, 112, 113, 114, 115, 116, 117, 118, 119, 120, 121, 122, 123, 124, 125, 126, 127, 128, 129] 30
        rw [hcalA]
        exact hcalB)
  have hrm : rank_models [("A", calculate_all_metrics [100, 101, 102, 103, 104, 105, 106, 107, 108, 109, 110, 111, 112, 113, 114, 115, 116, 117, 118, 119, 120, 121, 122, 123, 124, 125, 126, 127, 128, 129] 30), ("B", calculate_all_metrics [100, 99, 98, 97, 96, 95, 94, 93, 92, 91, 90, 89, 88, 87, 86, 85, 84, 83, 82, 81, 80, 79, 78, 77, 76, 75, 74, 73, 72, 71] 30)] = [("A", 1), ("B", 2)] := by
    unfold rank_models
    simp only [List.map_cons, List.map_nil, METRIC_WEIGHTS, List.sum_cons, List.sum_nil]
    rw [metricRank_pair_one hp_ar, metricRank_pair_one hp_sh,
      metricRank_pair_one hp_mdd, metricRank_pair_one hp_so,
      metricRank_pair_one hp_cal, metricRank_pair_two hp_ar hABne,
      metricRank_pair_two hp_sh hABne, metricRank_pair_two hp_mdd hABne,
      metricRank_pair_two hp_so hABne, metricRank_pair_two hp_cal hABne]
    norm_num
  have hwr : window_ranks [30] scenario_backtest 30 = [[("A", (1:ℝ)), ("B", 2)]] := by
    unfold window_ranks
    simp only [List.filterMap_cons, List.filterMap_nil]
    rw [hwm, hrm]
    simp
  have hsel : select_best_model [30] scenario_backtest 30 =
      ("A", 1, [("A", (1:ℝ)), ("B", 2)]) := by
    unfold select_best_model
    rw [hwr]
    simp only [List.isEmpty_cons, Bool.false_eq_true, if_false]
    have hsummed : List.foldl (fun acc ranks => ranks.foldl bumpRank acc) []
        [[("A", (1:ℝ)), ("B", 2)]] = [("A", (1:ℝ)), ("B", 2)] := by
      simp only [List.foldl_cons, List.foldl_nil, bumpRank]
      rw [if_neg hABne]
    rw [hsummed]
    simp only [List.length_cons, List.length_nil, List.map_cons, List.map_nil]
    norm_num
    rw [if_pos (show rankLE ("A", (1:ℝ)) ("B", 2) from by
      show (1:ℝ) ≤ 2
      norm_num)]
    norm_num
  rw [hsel]
  exact ⟨rfl, by norm_num⟩

end PyTAAAWeb
